import Mathlib

/-!
# Verification of the PubChemPy request/normalization core

Shallow embedding of `src/pubchempy.py` (version 1.0.1): the request
builder (`request`), the async polling wrapper (`get`), the JSON
convenience wrapper (`get_json` / `get_compounds`), the property lookup
(`_parse_prop`, here `parse_prop`), the entity accessors
(`Compound.cid`, `Compound.atoms`, memoized `synonyms`/`sids`/`aids`,
`Substance.sid`, `Assay.aid`, `to_dict` default property enumeration)
and the HTTP error classifier (`PubChemHTTPError`).

JSON values are modelled by the inductive `JVal`; Python exceptions that
can escape the modelled code are the inductive `PyExc`; the domain error
taxonomy raised by the classifier is `PCError`.  Network I/O is modelled
by oracle functions passed as parameters.
-/

set_option autoImplicit false

namespace PubChemPy

/-- A JSON value as produced by `json.loads`: objects are
insertion-ordered association lists, numbers are split into ints and
(rational-modelled) floats.  No arithmetic is ever performed on floats
by the embedded code; they are opaque data. -/
inductive JVal where
  | null
  | bool (b : Bool)
  | int (n : Int)
  | float (q : ℚ)
  | str (s : String)
  | arr (xs : List JVal)
  | obj (fs : List (String × JVal))

/-- The closed domain error taxonomy raised by the classifier.  The
six specific classes store only the message; the generic
`PubChemHTTPError` keeps the raw status code too. -/
inductive PCError where
  | badRequest (msg : String)
  | notFound (msg : String)
  | methodNotAllowed (msg : String)
  | timeout (msg : String)
  | unimplemented (msg : String)
  | serverError (msg : String)
  | generic (code : Int) (msg : String)
deriving DecidableEq, Repr

/-- Python exceptions that the modelled code can raise. -/
inductive PyExc where
  | keyError (k : String)
  | indexError
  | typeError
  | pc (e : PCError)
deriving DecidableEq, Repr

mutual

/-- Structural equality of JSON values (Python `==`). -/
def beqJ : JVal → JVal → Bool
  | .null, .null => true
  | .bool a, .bool b => a == b
  | .int a, .int b => a == b
  | .float a, .float b => a == b
  | .str a, .str b => a == b
  | .arr xs, .arr ys => beqJList xs ys
  | .obj fs, .obj gs => beqJObj fs gs
  | _, _ => false

/-- Structural equality of JSON arrays. -/
def beqJList : List JVal → List JVal → Bool
  | [], [] => true
  | x :: xs, y :: ys => beqJ x y && beqJList xs ys
  | _, _ => false

/-- Structural equality of JSON objects (insertion order significant in
the model; the embedded code only compares string-valued fields). -/
def beqJObj : List (String × JVal) → List (String × JVal) → Bool
  | [], [] => true
  | (k, v) :: fs, (l, w) :: gs => k == l && beqJ v w && beqJObj fs gs
  | _, _ => false

end

namespace JVal

/-- Python `k in d` for a JSON object; on a non-object the records in
scope are always objects, modelled as `false`. -/
def hasKey (j : JVal) (k : String) : Bool :=
  match j with
  | .obj fs => fs.any (fun p => p.1 = k)
  | _ => false

/-- Dictionary lookup `d[k]` in a context where the guard `k in d` has
already been established; returns `null` if absent. -/
def getD (j : JVal) (k : String) : JVal :=
  match j with
  | .obj fs => ((fs.find? (fun p => p.1 = k)).map Prod.snd).getD .null
  | _ => .null

/-- Python subscript `d[k]`: `KeyError` when the key is missing,
`TypeError` when the value is not an object. -/
def item (j : JVal) (k : String) : Except PyExc JVal :=
  match j with
  | .obj fs =>
    match fs.find? (fun p => p.1 = k) with
    | some p => .ok p.2
    | none => .error (.keyError k)
  | _ => .error .typeError

/-- Python truthiness of a JSON value (`if x:`). -/
def truthy : JVal → Bool
  | .null => false
  | .bool b => b
  | .int n => n ≠ 0
  | .float q => q ≠ 0
  | .str s => s ≠ ""
  | .arr xs => !xs.isEmpty
  | .obj fs => !fs.isEmpty

/-- Python `str(x)` restricted to the scalar shapes that flow through
the modelled code (identifiers and fault details are ints or strings). -/
def pyStr : JVal → String
  | .null => "None"
  | .bool b => if b then "True" else "False"
  | .int n => toString n
  | .float q => toString q
  | .str s => s
  | .arr _ => "[...]"
  | .obj _ => "{...}"

/-- Python subscript `a[i]` on an array for a natural index:
`IndexError` on overflow, `TypeError` on a non-array. -/
def atIdx (j : JVal) (i : Nat) : Except PyExc JVal :=
  match j with
  | .arr xs =>
    match xs.get? i with
    | some v => .ok v
    | none => .error .indexError
  | _ => .error .typeError

/-- Iterating a value as a Python list: `TypeError` on a non-array. -/
def asArr (j : JVal) : Except PyExc (List JVal) :=
  match j with
  | .arr xs => .ok xs
  | _ => .error .typeError

end JVal

/-! ## Request builder (`request`, pubchempy.py lines 37-73)

The URL/POST assembly is modelled exactly; the network call at the end
of the Python function is outside the model (its failure path is the
error classifier, modelled separately).  The local variables `urlid`,
`postdata` and `comps` of the source are exposed as fields of the
result so the placement rule can be stated about them. -/

/-- `API_BASE` constant of the source. -/
def API_BASE : String := "https://pubchem.ncbi.nlm.nih.gov/rest/pug"

/-- An RFC 3986 unreserved byte, the set `urllib.parse.quote` never
encodes: ALPHA / DIGIT / "-" / "." / "_" / "~". -/
def isUnreservedByte (n : Nat) : Bool :=
  (48 ≤ n && n ≤ 57) || (65 ≤ n && n ≤ 90) || (97 ≤ n && n ≤ 122) ||
    n = 45 || n = 46 || n = 95 || n = 126

/-- Uppercase hex digit of a nibble. -/
def hexDigit (n : Nat) : Char :=
  if n < 10 then Char.ofNat (48 + n) else Char.ofNat (55 + n)

/-- `%XX` escape of one byte. -/
def percentByte (n : Nat) : String :=
  String.mk ['%', hexDigit (n / 16), hexDigit (n % 16)]

/-- UTF-8 encoding of one code point, as byte values. -/
def utf8Bytes (c : Char) : List Nat :=
  let n := c.toNat
  if n < 128 then [n]
  else if n < 2048 then [192 + n / 64, 128 + n % 64]
  else if n < 65536 then [224 + n / 4096, 128 + (n / 64) % 64, 128 + n % 64]
  else [240 + n / 262144, 128 + (n / 4096) % 64, 128 + (n / 64) % 64,
        128 + n % 64]

/-- `s.encode('utf8')` as a byte-value list. -/
def strBytes (s : String) : List Nat :=
  s.data.flatMap utf8Bytes

/-- `urllib.parse.quote(s.encode('utf8'))`: UTF-8 encode, then
percent-encode every byte that is not unreserved and not `/` (the
default `safe` set). -/
def quote (s : String) : String :=
  String.join ((strBytes s).map (fun n =>
    if isUnreservedByte n || n = 47 then String.singleton (Char.ofNat n)
    else percentByte n))

/-- `urllib.parse.quote_plus`: like `quote` with empty `safe`, but a
space becomes `+`. -/
def quotePlus (s : String) : String :=
  String.join ((strBytes s).map (fun n =>
    if n = 32 then "+"
    else if isUnreservedByte n then String.singleton (Char.ofNat n)
    else percentByte n))

/-- `urllib.parse.urlencode` over already-stringified pairs. -/
def urlencode (kw : List (String × String)) : String :=
  String.intercalate "&" (kw.map (fun p => quotePlus p.1 ++ "=" ++ quotePlus p.2))

/-- Identifier normalization at the top of `request`: an int becomes
its decimal string, a string passes through, any other iterable is
comma-joined over `str` of its elements. -/
def normalizeIdentifier : JVal → String
  | .int n => toString n
  | .str s => s
  | .arr xs => String.intercalate "," (xs.map JVal.pyStr)
  | v => v.pyStr

/-- Truthiness of the `searchtype` argument (`None` and `''` are
falsy). -/
def styTruthy (searchtype : Option String) : Bool :=
  searchtype.getD "" ≠ ""

/-- The sourceid fix-up of pubchempy.py lines 55-56:
`identifier.replace('/', '.')`, applied only for namespace
`sourceid`. -/
def sourceidFix (ns ident : String) : String :=
  if ns = "sourceid" then ident.replace "/" "." else ident

/-- The placement condition of pubchempy.py line 57: the identifier
goes into the URL path exactly when it holds. -/
def urlPlacement (ns : String) (domain : String) (searchtype : Option String) : Bool :=
  (ns ∈ (["listkey", "formula", "sourceid"] : List String)) ||
    (styTruthy searchtype && ns = "cid") || domain = "sources"

/-- The assembled request: the source's `urlid` / `postdata` locals,
the non-empty path components `comps`, and the final `apiurl`. -/
structure BuiltRequest where
  urlid : Option String
  postdata : Option String
  comps : List String
  apiurl : String
deriving DecidableEq, Repr

/-- `request(identifier, namespace, domain, operation, output,
searchtype, **kwargs)` up to the point where the URL and POST data are
fixed (`namespace` is `ns` here, since `namespace` is a Lean keyword).
`kwargs` values equal to `None` are dropped first, as in the source. -/
def request (identifier : JVal) (ns : String) (domain : String)
    (operation : Option String) (output : String) (searchtype : Option String)
    (kwargs : List (String × Option String)) : BuiltRequest :=
  let kw := kwargs.filterMap (fun p => p.2.map (fun v => (p.1, v)))
  let ident := sourceidFix ns (normalizeIdentifier identifier)
  let up := urlPlacement ns domain searchtype
  let urlid : Option String := if up then some (quote ident) else none
  let postdata : Option String :=
    if up then none else some (ns ++ "=" ++ quote ident)
  let comps :=
    ([some API_BASE, some domain, searchtype, some ns, urlid, operation,
      some output].filterMap id).filter (fun s => s ≠ "")
  let apiurl0 := String.intercalate "/" comps
  let apiurl := if kw.isEmpty then apiurl0 else apiurl0 ++ "?" ++ urlencode kw
  ⟨urlid, postdata, comps, apiurl⟩

/-! ## Async wrapper (`get`, pubchempy.py lines 76-92)

The network is an oracle `server : Nat → ReqP → JVal` mapping the index
of the call (0 for the initial request, then increasing) and the
parameters passed to `request` to the parsed JSON of the response;
`json.loads` is the identity in this model.  `get` additionally returns
the list of parameter tuples it passed to `request`, in order, and the
total units slept, and returns `none` only when the polling loop
outruns the supplied fuel (the Python loop is unbounded). -/

/-- The parameter tuple of one call to `request` made by `get`. -/
structure ReqP where
  identifier : JVal
  ns : String
  domain : String
  operation : Option String
  output : String
  searchtype : Option String

/-- The loop guard of `get`:
`'Waiting' in status and 'ListKey' in status['Waiting']`, returning the
listkey when it holds. -/
def waitingListKey (status : JVal) : Option JVal :=
  if status.hasKey "Waiting" && (status.getD "Waiting").hasKey "ListKey"
  then some ((status.getD "Waiting").getD "ListKey")
  else none

/-- The `while` loop of `get`: while the current response is a waiting
status, sleep 2 and re-issue `preq` (whose identifier/namespace were
fixed from the first waiting response).  Returns the first non-waiting
response, the number of polls made, and the next free call index. -/
def pollLoop (server : Nat → ReqP → JVal) (preq : ReqP) :
    Nat → Nat → JVal → Option (JVal × Nat × Nat)
  | 0, t, response =>
    match waitingListKey response with
    | none => some (response, 0, t)
    | some _ => none
  | fuel' + 1, t, response =>
    match waitingListKey response with
    | none => some (response, 0, t)
    | some _ =>
      (pollLoop server preq fuel' (t + 1) (server t preq)).map
        (fun q => (q.1, q.2.1 + 1, q.2.2))

/-- `get(identifier, namespace, domain, operation, output, searchtype)`:
async handling when a searchtype is given or the namespace is
`formula`; otherwise a single pass-through request.  Result: the
returned payload, the log of `request` parameter tuples, and the units
slept. -/
def get (server : Nat → ReqP → JVal) (fuel : Nat) (identifier : JVal)
    (ns : String) (domain : String) (operation : Option String)
    (output : String) (searchtype : Option String) :
    Option (JVal × List ReqP × Nat) :=
  if styTruthy searchtype || ns = "formula" then
    let req0 : ReqP := ⟨identifier, ns, domain, none, "JSON", searchtype⟩
    let response := server 0 req0
    match waitingListKey response with
    | some lk =>
      let preq : ReqP := ⟨lk, "listkey", domain, operation, "JSON", none⟩
      match pollLoop server preq fuel 1 response with
      | none => none
      | some (finalResp, n, tf) =>
        if output ≠ "JSON" then
          let freq : ReqP := ⟨lk, "listkey", domain, operation, output, searchtype⟩
          some (server tf freq, req0 :: (List.replicate n preq ++ [freq]), 2 * n)
        else
          some (finalResp, req0 :: List.replicate n preq, 2 * n)
    | none => some (response, [req0], 0)
  else
    let req : ReqP := ⟨identifier, ns, domain, operation, output, searchtype⟩
    some (server 0 req, [req], 0)

/-! ## Error classifier (`PubChemHTTPError`, pubchempy.py lines 739-762)

`PubChemHTTPError.__init__` re-raises one of the six specific error
classes for the mapped status codes; for any other code the constructor
completes and the generic `PubChemHTTPError` itself (carrying the raw
code and message) is what `request` raises. -/

/-- `json.load(e)['Fault']['Details'][0]`, with the `except
(ValueError, IndexError, KeyError)` of the source: those three
exceptions yield `none` (no detail appended); a `TypeError` — raised
when a decoded non-object is subscripted — is NOT in the except clause
and escapes.  `body = none` models an undecodable body (`ValueError`
from `json.load`). -/
def faultDetail (body : Option JVal) : Except PyExc (Option String) :=
  match body with
  | none => .ok none
  | some j =>
    match j.item "Fault" with
    | .error (.keyError _) => .ok none
    | .error e => .error e
    | .ok f =>
      match f.item "Details" with
      | .error (.keyError _) => .ok none
      | .error e => .error e
      | .ok (.arr []) => .ok none
      | .ok (.arr (d :: _)) => .ok (some d.pyStr)
      | .ok (.obj _) => .ok none
      | .ok (.str s) =>
        match s.data.head? with
        | some c => .ok (some (String.singleton c))
        | none => .ok none
      | .ok _ => .error .typeError

/-- The message built by `PubChemHTTPError.__init__`: the reason,
plus `': '` and the fault detail when one was extracted. -/
def detailMsg (reason : String) : Option String → String
  | some s => reason ++ ": " ++ s
  | none => reason

/-- `classify(code, reason, body)`: the behaviour of
`PubChemHTTPError.__init__` — build the message (reason, plus `': '`
and the first fault detail when the body yields one), then dispatch on
the status code. -/
def classify (code : Int) (reason : String) (body : Option JVal) :
    Except PyExc PCError :=
  match faultDetail body with
  | .error e => .error e
  | .ok d =>
    let msg := detailMsg reason d
    .ok (if code = 400 then .badRequest msg
      else if code = 404 then .notFound msg
      else if code = 405 then .methodNotAllowed msg
      else if code = 504 then .timeout msg
      else if code = 501 then .unimplemented msg
      else if code = 500 then .serverError msg
      else .generic code msg)

/-! ## JSON convenience wrapper (`get_json` / `get_compounds`,
pubchempy.py lines 95-117)

The outcome of `json.loads(get(...).decode())` is the oracle argument
`r`: `.ok v` for a successful parsed response, `.error e` for any
exception raised inside the `try` block. -/

/-- `get_json`: pass successes through, catch `NotFoundError` (log and
return `None`), propagate every other exception unmodified. -/
def get_json (r : Except PyExc JVal) : Except PyExc (Option JVal) :=
  match r with
  | .ok v => .ok (some v)
  | .error (.pc (.notFound _)) => .ok none
  | .error e => .error e

/-- `get_compounds` (non-dataframe path): each element of
`results['PC_Compounds']` is wrapped in `Compound`, which stores the
record unchanged, so the model returns the records; a `None` result
from `get_json` yields `[]`. -/
def get_compounds (r : Except PyExc JVal) : Except PyExc (List JVal) :=
  match get_json r with
  | .error e => .error e
  | .ok none => .ok []
  | .ok (some results) =>
    match results.item "PC_Compounds" with
    | .error e => .error e
    | .ok (.arr rs) => .ok rs
    | .ok _ => .error .typeError

/-! ## Property lookup (`_parse_prop`, pubchempy.py lines 564-568) -/

/-- Pair equality used by Python's `item in d.items()`. -/
def beqPair (a b : String × JVal) : Bool :=
  a.1 == b.1 && beqJ a.2 b.2

/-- One element of a record's `props` list: its `urn` tag object and
its `value` object, both insertion-ordered. -/
structure PropEntry where
  urn : List (String × JVal)
  value : List (String × JVal)

/-- `all(item in i['urn'].items() for item in search.items())`: every
(field, value) pair of the filter occurs among the entry's urn pairs. -/
def matchesFilter (search : List (String × JVal)) (e : PropEntry) : Bool :=
  search.all (fun item => e.urn.any (beqPair item))

/-- `_parse_prop(search, proplist)`: first entry whose urn pairs
contain every filter pair; its value object's first value (there is
exactly one populated value-kind key per entry; an empty value object,
which would be an `IndexError` in Python, is `none` here).  No match
is `None`. -/
def parse_prop (search : List (String × JVal)) (proplist : List PropEntry) :
    Option JVal :=
  match proplist.filter (matchesFilter search) with
  | [] => none
  | p :: _ => p.value.head?.map Prod.snd

/-! ## Compound accessors (pubchempy.py lines 269-561) -/

/-- `Compound.cid`: guarded nested lookup
(`'id' in record and 'id' in record['id'] and 'cid' in
record['id']['id']`), implicit `None` when the guard fails.  The
nested values of deposited records are JSON objects; a non-object at a
guard position is treated as not containing the key. -/
def Compound.cid (record : JVal) : JVal :=
  if record.hasKey "id" && (record.getD "id").hasKey "id" &&
      ((record.getD "id").getD "id").hasKey "cid"
  then ((record.getD "id").getD "id").getD "cid"
  else .null

/-- Body shared by the memoized `Compound.synonyms` / `sids` / `aids`:
`if self.cid:` guards the fetch; on a falsy cid the function body falls
through and Python returns `None`.  `oracle` is the outcome of
`get_json` for this cid/operation (`none` models the suppressed
`NotFoundError`); the second component counts fetches issued.  `key`
is `"Synonym"` / `"SID"` / `"AID"`. -/
def Compound.fetchInfoList (key : String) (oracle : JVal → Option JVal)
    (record : JVal) : Except PyExc JVal × Nat :=
  if (Compound.cid record).truthy then
    match oracle (Compound.cid record) with
    | none => (.ok (.arr []), 1)
    | some results =>
      ((do
        let il ← results.item "InformationList"
        let info ← il.item "Information"
        let first ← info.atIdx 0
        first.item key), 1)
  else (.ok .null, 0)

/-- `Compound.synonyms` (memoized; the underlying fget body). -/
def Compound.synonyms (oracle : JVal → Option JVal) (record : JVal) :
    Except PyExc JVal × Nat :=
  Compound.fetchInfoList "Synonym" oracle record

/-- `Compound.sids` (memoized; the underlying fget body). -/
def Compound.sids (oracle : JVal → Option JVal) (record : JVal) :
    Except PyExc JVal × Nat :=
  Compound.fetchInfoList "SID" oracle record

/-- `Compound.aids` (memoized; the underlying fget body). -/
def Compound.aids (oracle : JVal → Option JVal) (record : JVal) :
    Except PyExc JVal × Nat :=
  Compound.fetchInfoList "AID" oracle record

/-! ## Atom zipping (`Compound.atoms`, pubchempy.py lines 332-345) -/

/-- One atom dictionary produced by the zip: always the keys `x`, `y`,
`element` (in that insertion order in Python), optionally `z`, and
optionally a `charge` overlaid afterwards. -/
structure Atom where
  x : JVal
  y : JVal
  element : JVal
  z : Option JVal := none
  charge : Option JVal := none

/-- `zip` of the x/y/element arrays (truncates at the shortest, as
Python's `zip` does). -/
def zipXYE : List JVal → List JVal → List JVal → List Atom
  | x :: xs, y :: ys, e :: es => ⟨x, y, e, none, none⟩ :: zipXYE xs ys es
  | _, _, _ => []

/-- `zip` of the x/y/element/z arrays. -/
def zipXYEZ : List JVal → List JVal → List JVal → List JVal → List Atom
  | x :: xs, y :: ys, e :: es, z :: zs =>
    ⟨x, y, e, some z, none⟩ :: zipXYEZ xs ys es zs
  | _, _, _, _ => []

/-- Overwrite the `charge` key of the atom dict at position `i`. -/
def setCharge : List Atom → Nat → JVal → List Atom
  | [], _, _ => []
  | a :: rest, 0, v => { a with charge := some v } :: rest
  | a :: rest, n + 1, v => a :: setCharge rest n v

/-- Python list index resolution (negative indices count from the
end); `none` is an `IndexError`. -/
def pyListIdx (len : Nat) (i : Int) : Option Nat :=
  if 0 ≤ i then (if i < (len : Int) then some i.toNat else none)
  else (if -i ≤ (len : Int) then some (len - (-i).toNat) else none)

/-- `for charge in record['atoms']['charge']:
atomlist[charge['aid']]['charge'] = charge['value']` (the assignment
target's index is evaluated after the right-hand side). -/
def applyCharges (atoms : List Atom) : List JVal → Except PyExc (List Atom)
  | [] => .ok atoms
  | c :: cs => do
    let v ← c.item "value"
    let aidv ← c.item "aid"
    match aidv with
    | .int i =>
      match pyListIdx atoms.length i with
      | some idx => applyCharges (setCharge atoms idx v) cs
      | none => .error .indexError
    | _ => .error .typeError

/-- `Compound.atoms`: zip the conformer's `x`/`y` (and `z` when
present) arrays with `atoms.element` into per-atom dicts, then overlay
each entry of `atoms.charge` at the position named by its `aid`. -/
def Compound.atoms (record : JVal) : Except PyExc (List Atom) := do
  let coords ← record.item "coords"
  let c0 ← coords.atIdx 0
  let confs ← c0.item "conformers"
  let conf ← confs.atIdx 0
  let xs ← (← conf.item "x").asArr
  let ys ← (← conf.item "y").asArr
  let atomsRec ← record.item "atoms"
  let es ← (← atomsRec.item "element").asArr
  let atomlist ←
    if conf.hasKey "z" then do
      let zs ← (← conf.item "z").asArr
      pure (zipXYEZ xs ys es zs)
    else
      pure (zipXYE xs ys es)
  if atomsRec.hasKey "charge" then do
    let charges ← (← atomsRec.item "charge").asArr
    applyCharges atomlist charges
  else
    pure atomlist

/-! ## `to_dict` default property enumeration (pubchempy.py lines
295-303 and 602-613)

The default property list is
`[p for p in dir(Cls) if isinstance(getattr(Cls, p), property)]`
(Substance additionally drops `deposited_compound`).  The class
attribute tables below list every attribute defined in the class
bodies, with the kind of object `getattr` returns; attributes
inherited from `object` are plain methods and never properties.
Crucially, `memoized_property` (lines 254-266) ends with
`return property(fget_memoized)`, so a memoized attribute IS a
`property` instance and passes the `isinstance` filter. -/

/-- What `getattr(Cls, name)` returns for a class-body attribute. -/
inductive PyAttrKind where
  | plainProp
  | memoizedProp
  | method
deriving DecidableEq, Repr

/-- `isinstance(getattr(Cls, p), property)`: true for plain
properties and for memoized properties (which are built with
`property(...)`). -/
def isPropertyInstance : PyAttrKind → Bool
  | .plainProp => true
  | .memoizedProp => true
  | .method => false

/-- The attributes defined in the `Compound` class body, in source
order (`dir` sorts names, which does not affect membership). -/
def Compound.classAttrs : List (String × PyAttrKind) :=
  [("from_cid", .method), ("to_dict", .method), ("to_series", .method),
   ("cid", .plainProp), ("elements", .plainProp), ("atoms", .plainProp),
   ("bonds", .plainProp),
   ("synonyms", .memoizedProp), ("sids", .memoizedProp), ("aids", .memoizedProp),
   ("coordinate_type", .plainProp), ("charge", .plainProp),
   ("molecular_formula", .plainProp), ("molecular_weight", .plainProp),
   ("canonical_smiles", .plainProp), ("isomeric_smiles", .plainProp),
   ("inchi", .plainProp), ("inchikey", .plainProp),
   ("iupac_name", .plainProp), ("xlogp", .plainProp),
   ("exact_mass", .plainProp), ("monoisotopic_mass", .plainProp),
   ("tpsa", .plainProp), ("complexity", .plainProp),
   ("h_bond_donor_count", .plainProp), ("h_bond_acceptor_count", .plainProp),
   ("rotatable_bond_count", .plainProp), ("fingerprint", .plainProp),
   ("heavy_atom_count", .plainProp), ("isotope_atom_count", .plainProp),
   ("atom_stereo_count", .plainProp), ("defined_atom_stereo_count", .plainProp),
   ("undefined_atom_stereo_count", .plainProp), ("bond_stereo_count", .plainProp),
   ("defined_bond_stereo_count", .plainProp),
   ("undefined_bond_stereo_count", .plainProp),
   ("covalent_unit_count", .plainProp), ("volume_3d", .plainProp),
   ("multipoles_3d", .plainProp), ("conformer_rmsd_3d", .plainProp),
   ("effective_rotor_count_3d", .plainProp),
   ("pharmacophore_features_3d", .plainProp),
   ("mmff94_partial_charges_3d", .plainProp), ("mmff94_energy_3d", .plainProp),
   ("conformer_id_3d", .plainProp), ("shape_selfoverlap_3d", .plainProp),
   ("feature_selfoverlap_3d", .plainProp), ("shape_fingerprint_3d", .plainProp)]

/-- The default property list computed by `Compound.to_dict` when no
properties are given. -/
def Compound.defaultToDictProps : List String :=
  (Compound.classAttrs.filter (fun a => isPropertyInstance a.2)).map Prod.fst

/-- The attributes defined in the `Substance` class body. -/
def Substance.classAttrs : List (String × PyAttrKind) :=
  [("from_sid", .method), ("to_dict", .method), ("to_series", .method),
   ("sid", .plainProp), ("synonyms", .plainProp), ("source_name", .plainProp),
   ("source_id", .plainProp), ("standardized_cid", .plainProp),
   ("standardized_compound", .memoizedProp), ("deposited_compound", .plainProp),
   ("cids", .memoizedProp), ("aids", .memoizedProp)]

/-- The default property list computed by `Substance.to_dict`: property
instances minus `deposited_compound`. -/
def Substance.defaultToDictProps : List String :=
  ((Substance.classAttrs.filter (fun a => isPropertyInstance a.2)).map
    Prod.fst).filter (fun p => p ≠ "deposited_compound")

/-! ## Remaining identity accessors (pubchempy.py lines 626-629 and
703-705) -/

/-- `Substance.sid`: `return self.record['sid']['id']` — unguarded. -/
def Substance.sid (record : JVal) : Except PyExc JVal := do
  (← record.item "sid").item "id"

/-- `Assay.aid`: `return self.record['id']['id']['aid']` — unguarded. -/
def Assay.aid (record : JVal) : Except PyExc JVal := do
  (← (← record.item "id").item "id").item "aid"

/-! ## Concrete record constructors used by the testable properties -/

/-- The JSON encoding of one charge annotation `(aid, value)`. -/
def encCharge (c : Nat × JVal) : JVal :=
  .obj [("aid", .int (c.1 : Int)), ("value", c.2)]

/-- A compound record with 2D coordinates built from parallel arrays
and a charge annotation list, shaped as PubChem records are
(`coords[0].conformers[0].x/y`, `atoms.element`, `atoms.charge`). -/
def mkAtomRecord (es xs ys : List JVal) (charges : List (Nat × JVal)) : JVal :=
  .obj [("coords", .arr [.obj [("conformers",
          .arr [.obj [("x", .arr xs), ("y", .arr ys)]])]]),
        ("atoms", .obj (("element", .arr es) ::
          (if charges.isEmpty then [] else
            [("charge", .arr (charges.map encCharge))])))]

/-- The charge value the annotation sequence leaves at position `i`:
the first matching annotation of the reversed sequence, i.e. the last
one applied. -/
def overlayCharge (cs : List (Nat × JVal)) (i : Nat) (a : Atom) : Atom :=
  match cs.find? (fun c => c.1 = i) with
  | some c => { a with charge := some c.2 }
  | none => a

/-- The record of the spec's atom-zipping example: elements C and O,
x = 0.0/1.0, y = 0.0/0.0, one charge annotation at aid 1 with value
-1. -/
def exampleAtomRecord : JVal :=
  mkAtomRecord [.str "C", .str "O"] [.float 0, .float 1]
    [.float 0, .float 0] [(1, .int (-1))]

/-- Substring containment, used to state the classifier round-trip
examples. -/
def containsStr (h n : String) : Prop :=
  ∃ a b, h = a ++ n ++ b

/-! ## Concrete data for the witnesses -/

/-- A waiting status response carrying the listkey `LK`. -/
def waitingStatus : JVal :=
  .obj [("Waiting", .obj [("ListKey", .str "LK")])]

/-- A completed search result status. -/
def doneStatus : JVal :=
  .obj [("IdentifierList", .obj [("CID", .arr [.int 5])])]

/-- A server that answers the first call with a waiting status, every
later structured call with the final status, and any non-JSON-output
call with an SDF payload. -/
def demoServer : Nat → ReqP → JVal := fun t r =>
  if r.output = "SDF" then .str "SDFPAYLOAD"
  else if t = 0 then waitingStatus else doneStatus

/-- The Mass/Exact tag filter of the spec's lookup example. -/
def massFilter : List (String × JVal) :=
  [("label", .str "Mass"), ("name", .str "Exact")]

/-- A property list whose first entry matches only part of the filter,
whose second entry matches all of it (with an extra urn field), and
whose third also matches but comes later. -/
def massProps : List PropEntry :=
  [⟨[("label", .str "Mass"), ("name", .str "Other")], [("fval", .float 1)]⟩,
   ⟨[("label", .str "Mass"), ("name", .str "Exact"), ("datatype", .int 7)],
    [("sval", .str "78.046950192")]⟩,
   ⟨[("label", .str "Mass"), ("name", .str "Exact")], [("sval", .str "SECOND")]⟩]

/-! # Theorems -/

/-- The head of a filtered list is the first element satisfying the
predicate. -/
theorem filter_head?_eq_find? {α : Type} (p : α → Bool) (l : List α) :
    (l.filter p).head? = l.find? p := by
  induction l with
  | nil => rfl
  | cons a t ih =>
    by_cases h : p a
    · simp [List.filter_cons, h]
    · simp [List.filter_cons, h, ih]

/-- C3: for every tag filter and property sequence, `_parse_prop`
returns the value of the first entry whose urn pairs contain every
(field, value) pair of the filter — entries matching only part of the
filter are skipped and extra urn fields are ignored, both inherent in
the `find?` characterization — namely the single value stored under
the entry's one populated value-kind key; when no entry matches it
returns `none`, not an error. -/
theorem parse_prop_first_match (search : List (String × JVal))
    (proplist : List PropEntry) :
    (proplist.find? (matchesFilter search) = none →
      parse_prop search proplist = none) ∧
    (∀ e k v, proplist.find? (matchesFilter search) = some e →
      e.value = [(k, v)] → parse_prop search proplist = some v) := by
  have hf : (proplist.filter (matchesFilter search)).head? =
      proplist.find? (matchesFilter search) :=
    filter_head?_eq_find? (matchesFilter search) proplist
  constructor
  · intro h
    have hfl : proplist.filter (matchesFilter search) = [] := by
      cases hc : proplist.filter (matchesFilter search) with
      | nil => rfl
      | cons p t => rw [← hf, hc] at h; simp at h
    simp [parse_prop, hfl]
  · intro e k v hfind hval
    obtain ⟨t, ht⟩ : ∃ t, proplist.filter (matchesFilter search) = e :: t := by
      cases hc : proplist.filter (matchesFilter search) with
      | nil => rw [← hf, hc] at hfind; simp at hfind
      | cons p t =>
        rw [← hf, hc] at hfind
        simp only [List.head?_cons, Option.some.injEq] at hfind
        exact ⟨t, by rw [hfind]⟩
    simp [parse_prop, ht, hval]

/-- C3 witness: the Mass/Exact lookup returns the second entry's
value, skipping the first entry (which matches only `label`) and the
third (a later full match). -/
theorem parse_prop_first_match_witness :
    massProps.find? (matchesFilter massFilter) =
      some ⟨[("label", .str "Mass"), ("name", .str "Exact"),
             ("datatype", .int 7)], [("sval", .str "78.046950192")]⟩ ∧
    parse_prop massFilter massProps = some (.str "78.046950192") :=
  ⟨rfl, (parse_prop_first_match massFilter massProps).2 _ "sval"
    (.str "78.046950192") rfl rfl⟩

/-- C4 (code-bug evidence): the default `to_dict` property enumeration
keeps the memoized, request-issuing accessors, because
`memoized_property` ends in `return property(fget_memoized)` and so
passes the `isinstance(..., property)` filter: `synonyms`, `sids`,
`aids` are in Compound's default export list, and `cids`, `aids`,
`standardized_compound` in Substance's (only `deposited_compound`
is excluded) — contradicting the docstrings' claim that they are
"not included unless explicitly specified". -/
theorem to_dict_default_includes_memoized :
    "synonyms" ∈ Compound.defaultToDictProps ∧
    "sids" ∈ Compound.defaultToDictProps ∧
    "aids" ∈ Compound.defaultToDictProps ∧
    "cids" ∈ Substance.defaultToDictProps ∧
    "aids" ∈ Substance.defaultToDictProps ∧
    "standardized_compound" ∈ Substance.defaultToDictProps ∧
    "deposited_compound" ∉ Substance.defaultToDictProps := by
  decide

/-- C5 counterexample: on a Compound record with no cid, the memoized
`synonyms` body performs no fetch but evaluates to Python `None`
(`JVal.null`), which is not an empty sequence. -/
theorem memoized_no_cid_counterexample :
    Compound.synonyms (fun _ => none) (.obj []) = (.ok .null, 0) ∧
    (Except.ok JVal.null : Except PyExc JVal) ≠ .ok (.arr []) :=
  ⟨rfl, by simp⟩

/-- C5 amended: for every Compound whose cid is absent (or falsy),
each memoized accessor body (`synonyms`, `sids`, `aids`) performs no
underlying fetch and returns Python `None` — a null/absent value, not
an empty sequence and not an error. -/
theorem memoized_no_cid_amended (oracle : JVal → Option JVal) (record : JVal)
    (h : (Compound.cid record).truthy = false) :
    Compound.synonyms oracle record = (.ok .null, 0) ∧
    Compound.sids oracle record = (.ok .null, 0) ∧
    Compound.aids oracle record = (.ok .null, 0) := by
  simp [Compound.synonyms, Compound.sids, Compound.aids,
    Compound.fetchInfoList, h]

/-- C5 witness: the amended statement applied to the empty record. -/
theorem memoized_no_cid_amended_witness :
    (Compound.cid (.obj [])).truthy = false ∧
    Compound.sids (fun _ => none) (.obj []) = (.ok .null, 0) :=
  ⟨rfl, (memoized_no_cid_amended (fun _ => none) (.obj []) rfl).2.1⟩

/-- C6: `get_json` turns a NotFoundError into `None` (so
`get_compounds` yields `[]` for a query matching zero records), passes
successful results through, and propagates every other exception
unmodified. -/
theorem get_json_notfound_suppression :
    (∀ m, get_json (.error (.pc (.notFound m))) = .ok none) ∧
    (∀ v, get_json (.ok v) = .ok (some v)) ∧
    (∀ e, (∀ m, e ≠ PyExc.pc (.notFound m)) → get_json (.error e) = .error e) ∧
    (∀ m, get_compounds (.error (.pc (.notFound m))) = .ok []) := by
  refine ⟨fun m => rfl, fun v => rfl, ?_, fun m => rfl⟩
  intro e he
  cases e with
  | pc pe =>
    cases pe with
    | notFound m => exact absurd rfl (he m)
    | badRequest m => rfl
    | methodNotAllowed m => rfl
    | timeout m => rfl
    | unimplemented m => rfl
    | serverError m => rfl
    | generic c m => rfl
  | keyError k => rfl
  | indexError => rfl
  | typeError => rfl

/-- C6 witness: a ServerError propagates; a NotFoundError yields an
empty compound list. -/
theorem get_json_notfound_suppression_witness :
    (∀ m, PyExc.pc (.serverError "boom") ≠ PyExc.pc (.notFound m)) ∧
    get_json (.error (.pc (.serverError "boom"))) =
      .error (.pc (.serverError "boom")) ∧
    get_compounds (.error (.pc (.notFound "no records"))) = .ok [] :=
  ⟨fun m => by simp,
   get_json_notfound_suppression.2.2.1 _ (fun m => by simp),
   get_json_notfound_suppression.2.2.2 "no records"⟩

/-- C9 counterexample: on records missing the identity path,
`Substance.sid` and `Assay.aid` raise `KeyError` instead of returning
an absent value, so the identity accessors are not all total. -/
theorem identity_accessor_counterexample :
    Substance.sid (.obj [("source", .obj [])]) = .error (.keyError "sid") ∧
    Assay.aid (.obj []) = .error (.keyError "id") :=
  ⟨rfl, rfl⟩

/-- C9 amended: `Compound.cid` is total — when the nested
`id.id.cid` path is missing it evaluates to `None` without raising —
but `Substance.sid` and `Assay.aid` are unguarded and raise an
exception whenever the first key of their identity path is absent. -/
theorem identity_accessor_amended (record : JVal) :
    ((record.hasKey "id" && (record.getD "id").hasKey "id" &&
        ((record.getD "id").getD "id").hasKey "cid") = false →
      Compound.cid record = .null) ∧
    (record.hasKey "sid" = false →
      ∃ e, Substance.sid record = .error e) ∧
    (record.hasKey "id" = false →
      ∃ e, Assay.aid record = .error e) := by
  refine ⟨fun h => by simp [Compound.cid, h], fun h => ?_, fun h => ?_⟩
  · cases record with
    | obj fs =>
      have : fs.find? (fun p => p.1 = "sid") = none := by
        apply List.find?_eq_none.mpr
        intro p hp
        simp only [JVal.hasKey, List.any_eq_false] at h
        simpa using h p hp
      exact ⟨.keyError "sid", by simp [Substance.sid, JVal.item, this, Bind.bind, Except.bind]⟩
    | null => exact ⟨.typeError, rfl⟩
    | bool b => exact ⟨.typeError, rfl⟩
    | int n => exact ⟨.typeError, rfl⟩
    | float q => exact ⟨.typeError, rfl⟩
    | str s => exact ⟨.typeError, rfl⟩
    | arr xs => exact ⟨.typeError, rfl⟩
  · cases record with
    | obj fs =>
      have : fs.find? (fun p => p.1 = "id") = none := by
        apply List.find?_eq_none.mpr
        intro p hp
        simp only [JVal.hasKey, List.any_eq_false] at h
        simpa using h p hp
      exact ⟨.keyError "id", by simp [Assay.aid, JVal.item, this, Bind.bind, Except.bind]⟩
    | null => exact ⟨.typeError, rfl⟩
    | bool b => exact ⟨.typeError, rfl⟩
    | int n => exact ⟨.typeError, rfl⟩
    | float q => exact ⟨.typeError, rfl⟩
    | str s => exact ⟨.typeError, rfl⟩
    | arr xs => exact ⟨.typeError, rfl⟩

/-- C9 amended witness: the amended statement at concrete records. -/
theorem identity_accessor_amended_witness :
    Compound.cid (.obj [("atoms", .obj [])]) = .null ∧
    (∃ e, Substance.sid (.obj []) = .error e) ∧
    (∃ e, Assay.aid (.obj [("aid", .int 1)]) = .error e) :=
  ⟨(identity_accessor_amended (.obj [("atoms", .obj [])])).1 rfl,
   (identity_accessor_amended (.obj [])).2.1 rfl,
   (identity_accessor_amended (.obj [("aid", .int 1)])).2.2 rfl⟩

/-- C7: the classifier maps status codes one-to-one onto the closed
taxonomy — 400→BadRequest, 404→NotFound, 405→MethodNotAllowed,
500→ServerError, 501→Unimplemented, 504→Timeout, any other code to the
generic error carrying the raw code — with the message being the
reason text with the body's nested fault detail appended when the body
yields one (an undecodable body falls back to the bare reason); and
the two round-trip examples hold. -/
theorem classify_spec (reason : String) (body : Option JVal) :
    (∀ d, faultDetail body = .ok d →
      classify 400 reason body = .ok (.badRequest (detailMsg reason d)) ∧
      classify 404 reason body = .ok (.notFound (detailMsg reason d)) ∧
      classify 405 reason body = .ok (.methodNotAllowed (detailMsg reason d)) ∧
      classify 500 reason body = .ok (.serverError (detailMsg reason d)) ∧
      classify 501 reason body = .ok (.unimplemented (detailMsg reason d)) ∧
      classify 504 reason body = .ok (.timeout (detailMsg reason d)) ∧
      detailMsg reason none = reason ∧
      (∀ s, detailMsg reason (some s) = reason ++ ": " ++ s) ∧
      ∀ c : Int, c ∉ ([400, 404, 405, 500, 501, 504] : List Int) →
        classify c reason body = .ok (.generic c (detailMsg reason d))) ∧
    faultDetail none = .ok none ∧
    classify 404 "Not Found" none = .ok (.notFound "Not Found") ∧
    containsStr "Not Found" "Not Found" ∧
    classify 400 "Bad"
        (some (.obj [("Fault", .obj [("Details", .arr [.str "x"])])])) =
      .ok (.badRequest "Bad: x") ∧
    containsStr "Bad: x" "Bad" ∧ containsStr "Bad: x" "x" := by
  refine ⟨?_, rfl, rfl, ⟨"", "", rfl⟩, rfl, ⟨"", ": x", rfl⟩, ⟨"Bad: ", "", rfl⟩⟩
  intro d hd
  refine ⟨by simp [classify, hd, detailMsg], by simp [classify, hd, detailMsg],
    by simp [classify, hd, detailMsg], by simp [classify, hd, detailMsg],
    by simp [classify, hd, detailMsg], by simp [classify, hd, detailMsg],
    rfl, fun s => rfl, ?_⟩
  intro c hc
  simp only [List.mem_cons, List.not_mem_nil, or_false, not_or] at hc
  obtain ⟨h1, h2, h3, h4, h5, h6⟩ := hc
  simp [classify, hd, detailMsg, h1, h2, h3, h4, h5, h6]

/-- C7 witness: the classifier applied to a teapot status with an
undecodable body. -/
theorem classify_spec_witness :
    faultDetail (none : Option JVal) = .ok none ∧
    classify 400 "R" none = .ok (.badRequest "R") ∧
    ((418 : Int) ∉ ([400, 404, 405, 500, 501, 504] : List Int)) ∧
    classify 418 "R" none = .ok (.generic 418 "R") :=
  ⟨rfl, ((classify_spec "R" none).1 none rfl).1, by decide,
   ((classify_spec "R" none).1 none rfl).2.2.2.2.2.2.2.2 418 (by decide)⟩

/-- C1: the request builder embeds the (normalized, percent-encoded)
identifier in the URL path — with `postdata` left empty — exactly when
the namespace is `listkey`, `formula` or `sourceid`, or a search-type
is set together with namespace `cid`, or the domain is `sources`;
in every other combination the identifier goes only into the POST body
field named by the namespace and no identifier path segment exists;
it never occupies both places. -/
theorem request_identifier_placement (identifier : JVal) (ns domain : String)
    (operation : Option String) (output : String) (searchtype : Option String)
    (kwargs : List (String × Option String)) :
    ((ns = "listkey" ∨ ns = "formula" ∨ ns = "sourceid" ∨
        (styTruthy searchtype = true ∧ ns = "cid") ∨ domain = "sources") →
      (request identifier ns domain operation output searchtype kwargs).urlid =
        some (quote (sourceidFix ns (normalizeIdentifier identifier))) ∧
      (request identifier ns domain operation output searchtype kwargs).postdata
        = none ∧
      (quote (sourceidFix ns (normalizeIdentifier identifier)) ≠ "" →
        quote (sourceidFix ns (normalizeIdentifier identifier)) ∈
          (request identifier ns domain operation output searchtype kwargs).comps)) ∧
    (¬(ns = "listkey" ∨ ns = "formula" ∨ ns = "sourceid" ∨
        (styTruthy searchtype = true ∧ ns = "cid") ∨ domain = "sources") →
      (request identifier ns domain operation output searchtype kwargs).urlid =
        none ∧
      (request identifier ns domain operation output searchtype kwargs).postdata
        = some (ns ++ "=" ++
            quote (sourceidFix ns (normalizeIdentifier identifier)))) ∧
    ¬((request identifier ns domain operation output searchtype kwargs).urlid.isSome
        = true ∧
      (request identifier ns domain operation output searchtype kwargs).postdata.isSome
        = true) := by
  have hup : urlPlacement ns domain searchtype = true ↔
      (ns = "listkey" ∨ ns = "formula" ∨ ns = "sourceid" ∨
        (styTruthy searchtype = true ∧ ns = "cid") ∨ domain = "sources") := by
    simp only [urlPlacement, Bool.or_eq_true, decide_eq_true_eq,
      Bool.and_eq_true, List.mem_cons, List.not_mem_nil, or_false]
    tauto
  refine ⟨fun h => ?_, fun h => ?_, ?_⟩
  · have h' : urlPlacement ns domain searchtype = true := hup.mpr h
    refine ⟨by simp [request, sourceidFix, h'], by simp [request, sourceidFix, h'], ?_⟩
    intro hne
    simp only [request, h', if_true]
    refine List.mem_filter.mpr ⟨List.mem_filterMap.mpr
      ⟨some (quote (sourceidFix ns (normalizeIdentifier identifier))),
        by simp, rfl⟩, ?_⟩
    simpa using hne
  · have h' : urlPlacement ns domain searchtype = false := by
      cases hb : urlPlacement ns domain searchtype with
      | false => rfl
      | true => exact absurd (hup.mp hb) h
    simp [request, sourceidFix, h']
  · cases hb : urlPlacement ns domain searchtype <;>
      simp [request, hb]

/-- C1 witness: a formula request carries the identifier in the path
and has no POST body. -/
theorem request_identifier_placement_witness :
    ("formula" = "listkey" ∨ "formula" = "formula" ∨ "formula" = "sourceid" ∨
      (styTruthy none = true ∧ "formula" = "cid") ∨ "compound" = "sources") ∧
    (request (.str "C6H6") "formula" "compound" none "JSON" none []).urlid =
      some "C6H6" ∧
    (request (.str "C6H6") "formula" "compound" none "JSON" none []).postdata
      = none ∧
    "C6H6" ∈ (request (.str "C6H6") "formula" "compound" none "JSON" none
      []).comps := by
  have h := (request_identifier_placement (.str "C6H6") "formula" "compound"
    none "JSON" none []).1 (Or.inr (Or.inl rfl))
  exact ⟨Or.inr (Or.inl rfl), h.1, h.2.1, h.2.2 (by decide)⟩

/-- Soundness of the polling loop: if it returns, the final response is
the first non-waiting one, the returned count is the number of polls
(all issued with the fixed poll request), the next free call index is
`t + n`, and every earlier polled response was still waiting. -/
theorem pollLoop_sound (server : Nat → ReqP → JVal) (preq : ReqP) :
    ∀ (fuel t : Nat) (resp fr : JVal) (n tf : Nat),
      pollLoop server preq fuel t resp = some (fr, n, tf) →
      tf = t + n ∧ waitingListKey fr = none ∧
      (n = 0 → fr = resp) ∧
      (1 ≤ n → (waitingListKey resp).isSome = true ∧
        fr = server (t + n - 1) preq ∧
        ∀ i, t ≤ i → i + 1 < t + n →
          (waitingListKey (server i preq)).isSome = true) := by
  intro fuel
  induction fuel with
  | zero =>
    intro t resp fr n tf h
    unfold pollLoop at h
    split at h
    next hw =>
      simp only [Option.some.injEq, Prod.mk.injEq] at h
      obtain ⟨rfl, rfl, rfl⟩ := h
      exact ⟨by omega, hw, fun _ => rfl, fun hn => absurd hn (by omega)⟩
    next k hw => exact absurd h (by simp)
  | succ fuel' ih =>
    intro t resp fr n tf h
    unfold pollLoop at h
    split at h
    next hw =>
      simp only [Option.some.injEq, Prod.mk.injEq] at h
      obtain ⟨rfl, rfl, rfl⟩ := h
      exact ⟨by omega, hw, fun _ => rfl, fun hn => absurd hn (by omega)⟩
    next k hw =>
      rw [Option.map_eq_some'] at h
      obtain ⟨⟨fr', n', tf'⟩, hq, heq⟩ := h
      simp only [Prod.mk.injEq] at heq
      obtain ⟨rfl, rfl, rfl⟩ := heq
      obtain ⟨htf, hwfr, hn0, hn1⟩ := ih _ _ _ _ _ hq
      refine ⟨by omega, hwfr, fun hcon => absurd hcon (by omega), fun _ => ?_⟩
      refine ⟨by rw [hw]; rfl, ?_, ?_⟩
      · rcases Nat.eq_zero_or_pos n' with hn | hn
        · subst hn
          have harith : t + (0 + 1) - 1 = t := by omega
          rw [harith, hn0 rfl]
        · obtain ⟨_, hfr, _⟩ := hn1 (by omega)
          rw [hfr]
          congr 1
          omega
      · intro i hti hlt
        by_cases hit : i = t
        · subst hit
          obtain ⟨hw', _, _⟩ := hn1 (by omega)
          exact hw'
        · obtain ⟨_, _, hint⟩ := hn1 (by omega)
          exact hint i (by omega) (by omega)

/-- C2: in the async path (searchtype set or namespace `formula`), the
first request is issued with output forced to `JSON`; when the parsed
response is a waiting status with a listkey, the identifier switches to
that listkey and the namespace to `listkey` and the request is
re-issued (with the caller's operation, still JSON output) after 2
sleep units per poll until a non-waiting response arrives; then, when
the originally requested output differs from `JSON`, one final request
with the true output is issued and its payload returned; and when the
first response was never waiting, it is returned unmodified. -/
theorem get_async_protocol (server : Nat → ReqP → JVal) (fuel : Nat)
    (identifier : JVal) (ns domain : String) (operation : Option String)
    (output : String) (searchtype : Option String)
    (res : JVal) (lg : List ReqP) (slp : Nat)
    (hasync : styTruthy searchtype = true ∨ ns = "formula")
    (hres : get server fuel identifier ns domain operation output searchtype =
      some (res, lg, slp)) :
    lg.head? =
      some (⟨identifier, ns, domain, none, "JSON", searchtype⟩ : ReqP) ∧
    (waitingListKey
        (server 0 ⟨identifier, ns, domain, none, "JSON", searchtype⟩) = none →
      res = server 0 ⟨identifier, ns, domain, none, "JSON", searchtype⟩ ∧
      lg = [⟨identifier, ns, domain, none, "JSON", searchtype⟩] ∧ slp = 0) ∧
    (∀ lk, waitingListKey
        (server 0 ⟨identifier, ns, domain, none, "JSON", searchtype⟩) =
          some lk →
      ∃ n, 1 ≤ n ∧ slp = 2 * n ∧
        (∀ i, 1 ≤ i → i < n →
          (waitingListKey
            (server i ⟨lk, "listkey", domain, operation, "JSON", none⟩)).isSome
            = true) ∧
        waitingListKey
          (server n ⟨lk, "listkey", domain, operation, "JSON", none⟩) = none ∧
        (output = "JSON" →
          res = server n ⟨lk, "listkey", domain, operation, "JSON", none⟩ ∧
          lg = ⟨identifier, ns, domain, none, "JSON", searchtype⟩ ::
            List.replicate n ⟨lk, "listkey", domain, operation, "JSON", none⟩) ∧
        (output ≠ "JSON" →
          res = server (n + 1)
            ⟨lk, "listkey", domain, operation, output, searchtype⟩ ∧
          lg = ⟨identifier, ns, domain, none, "JSON", searchtype⟩ ::
            (List.replicate n ⟨lk, "listkey", domain, operation, "JSON", none⟩
              ++ [⟨lk, "listkey", domain, operation, output, searchtype⟩]))) := by
  have hc : (styTruthy searchtype || decide (ns = "formula")) = true := by
    rcases hasync with h | h <;> simp [h]
  simp only [get] at hres
  rw [if_pos hc] at hres
  split at hres
  next lk0 hw =>
    split at hres
    next hp => exact absurd hres (by simp)
    next fr n tf hp =>
      obtain ⟨htf, hwfr, hn0, hn1⟩ := pollLoop_sound server
        ⟨lk0, "listkey", domain, operation, "JSON", none⟩ fuel 1
        (server 0 ⟨identifier, ns, domain, none, "JSON", searchtype⟩)
        fr n tf hp
      have hn : 1 ≤ n := by
        by_contra hcon
        have hz : n = 0 := by omega
        rw [hn0 hz, hw] at hwfr
        exact Option.noConfusion hwfr
      obtain ⟨_, hfr, hint⟩ := hn1 hn
      have hidx : 1 + n - 1 = n := by omega
      rw [hidx] at hfr
      by_cases ho : output = "JSON"
      · subst ho
        rw [if_neg (by simp)] at hres
        simp only [Option.some.injEq, Prod.mk.injEq] at hres
        obtain ⟨rfl, rfl, rfl⟩ := hres
        refine ⟨rfl, fun h0 => ?_, fun lk hlk => ?_⟩
        · rw [hw] at h0; exact Option.noConfusion h0
        · rw [hw] at hlk
          obtain rfl : lk0 = lk := by injection hlk
          refine ⟨n, hn, rfl, fun i h1 h2 => hint i h1 (by omega), ?_,
            fun _ => ⟨hfr, rfl⟩, fun hcon => absurd rfl hcon⟩
          rw [← hfr]
          exact hwfr
      · rw [if_pos (by simpa using ho)] at hres
        simp only [Option.some.injEq, Prod.mk.injEq] at hres
        obtain ⟨rfl, rfl, rfl⟩ := hres
        refine ⟨rfl, fun h0 => ?_, fun lk hlk => ?_⟩
        · rw [hw] at h0; exact Option.noConfusion h0
        · rw [hw] at hlk
          obtain rfl : lk0 = lk := by injection hlk
          refine ⟨n, hn, rfl, fun i h1 h2 => hint i h1 (by omega), ?_,
            fun hcon => absurd hcon ho, fun _ => ⟨?_, rfl⟩⟩
          · rw [← hfr]
            exact hwfr
          · rw [htf]
            congr 1
            omega
  next hw =>
    simp only [Option.some.injEq, Prod.mk.injEq] at hres
    obtain ⟨rfl, rfl, rfl⟩ := hres
    refine ⟨rfl, fun _ => ⟨rfl, rfl, rfl⟩, fun lk hlk => ?_⟩
    rw [hw] at hlk
    exact Option.noConfusion hlk

/-- C2 witness: a formula search with SDF output whose first response
waits once; the theorem applies with every hypothesis discharged on
this concrete run. -/
theorem get_async_protocol_witness :
    (styTruthy none = true ∨ "formula" = "formula") ∧
    get demoServer 5 (.str "C6H6") "formula" "compound" none "SDF" none =
      some (.str "SDFPAYLOAD",
        [⟨.str "C6H6", "formula", "compound", none, "JSON", none⟩,
         ⟨.str "LK", "listkey", "compound", none, "JSON", none⟩,
         ⟨.str "LK", "listkey", "compound", none, "SDF", none⟩], 2) ∧
    ([⟨.str "C6H6", "formula", "compound", none, "JSON", none⟩,
      ⟨.str "LK", "listkey", "compound", none, "JSON", none⟩,
      ⟨.str "LK", "listkey", "compound", none, "SDF", none⟩] :
        List ReqP).head? =
      some (⟨.str "C6H6", "formula", "compound", none, "JSON", none⟩ : ReqP) :=
  ⟨Or.inr rfl, rfl,
    (get_async_protocol demoServer 5 (.str "C6H6") "formula" "compound" none
      "SDF" none _ _ _ (Or.inr rfl) rfl).1⟩

/-- C10: in the async path the initial request always omits the
caller's operation (it is passed as `None`), while every subsequent
polling or final-output request carries it; hence when the service
answers immediately with a non-waiting response, the returned payload
is the response to an operation-free request and is identical for
every requested operation. -/
theorem get_initial_operation_omitted (server : Nat → ReqP → JVal)
    (fuel : Nat) (identifier : JVal) (ns domain : String)
    (operation : Option String) (output : String)
    (searchtype : Option String)
    (hasync : styTruthy searchtype = true ∨ ns = "formula") :
    (∀ res lg slp,
      get server fuel identifier ns domain operation output searchtype =
        some (res, lg, slp) →
      lg.head? =
        some (⟨identifier, ns, domain, none, "JSON", searchtype⟩ : ReqP) ∧
      ∀ q ∈ lg.tail, q.operation = operation) ∧
    (waitingListKey
        (server 0 ⟨identifier, ns, domain, none, "JSON", searchtype⟩) = none →
      ∀ operation2 : Option String,
        get server fuel identifier ns domain operation2 output searchtype =
          some (server 0 ⟨identifier, ns, domain, none, "JSON", searchtype⟩,
            [⟨identifier, ns, domain, none, "JSON", searchtype⟩], 0)) := by
  have hc : (styTruthy searchtype || decide (ns = "formula")) = true := by
    rcases hasync with h | h <;> simp [h]
  constructor
  · intro res lg slp hres
    simp only [get] at hres
    rw [if_pos hc] at hres
    split at hres
    next lk0 hw =>
      split at hres
      next hp => exact absurd hres (by simp)
      next fr n tf hp =>
        by_cases ho : output = "JSON"
        · subst ho
          rw [if_neg (by simp)] at hres
          simp only [Option.some.injEq, Prod.mk.injEq] at hres
          obtain ⟨rfl, rfl, rfl⟩ := hres
          refine ⟨rfl, ?_⟩
          intro q hq
          simp only [List.tail_cons] at hq
          rw [List.eq_of_mem_replicate hq]
        · rw [if_pos (by simpa using ho)] at hres
          simp only [Option.some.injEq, Prod.mk.injEq] at hres
          obtain ⟨rfl, rfl, rfl⟩ := hres
          refine ⟨rfl, ?_⟩
          intro q hq
          simp only [List.tail_cons, List.mem_append,
            List.mem_singleton] at hq
          rcases hq with hq | hq
          · rw [List.eq_of_mem_replicate hq]
          · rw [hq]
    next hw =>
      simp only [Option.some.injEq, Prod.mk.injEq] at hres
      obtain ⟨rfl, rfl, rfl⟩ := hres
      exact ⟨rfl, by simp⟩
  · intro hw operation2
    simp only [get]
    rw [if_pos hc, hw]

/-- C10 witness: with an immediately-completing server the async path
returns the operation-free first response for any requested
operation. -/
theorem get_initial_operation_omitted_witness :
    (styTruthy (some "substructure") = true ∨ "smiles" = "formula") ∧
    waitingListKey ((fun _ _ => doneStatus : Nat → ReqP → JVal) 0
      ⟨.str "CCO", "smiles", "compound", none, "JSON",
        some "substructure"⟩) = none ∧
    get (fun _ _ => doneStatus) 3 (.str "CCO") "smiles" "compound"
        (some "cids") "JSON" (some "substructure") =
      some (doneStatus,
        [⟨.str "CCO", "smiles", "compound", none, "JSON",
          some "substructure"⟩], 0) :=
  ⟨Or.inl rfl, rfl,
    (get_initial_operation_omitted (fun _ _ => doneStatus) 3 (.str "CCO")
      "smiles" "compound" (some "cids") "JSON" (some "substructure")
      (Or.inl rfl)).2 rfl (some "cids")⟩

/-- Replacing the charge key keeps the list length. -/
theorem setCharge_length : ∀ (l : List Atom) (j : Nat) (v : JVal),
    (setCharge l j v).length = l.length := by
  intro l
  induction l with
  | nil => intro j v; rfl
  | cons a rest ih =>
    intro j v
    cases j with
    | zero => rfl
    | succ j' => simp [setCharge, ih]

/-- Pointwise effect of replacing the charge key at one position. -/
theorem setCharge_get? : ∀ (l : List Atom) (j i : Nat) (v : JVal),
    (setCharge l j v).get? i =
      if j = i then (l.get? i).map (fun a => { a with charge := some v })
      else l.get? i := by
  intro l
  induction l with
  | nil =>
    intro j i v
    simp [setCharge]
  | cons a rest ih =>
    intro j i v
    cases j with
    | zero =>
      cases i with
      | zero => simp [setCharge]
      | succ i' => simp [setCharge]
    | succ j' =>
      cases i with
      | zero => simp [setCharge]
      | succ i' => simpa [setCharge] using ih j' i' v

/-- Folding the charge assignments keeps the list length. -/
theorem foldl_setCharge_length (cs : List (Nat × JVal)) :
    ∀ atoms : List Atom,
      (cs.foldl (fun acc c => setCharge acc c.1 c.2) atoms).length =
        atoms.length := by
  induction cs with
  | nil => intro atoms; rfl
  | cons c cs ih =>
    intro atoms
    simp only [List.foldl_cons]
    rw [ih, setCharge_length]

/-- Folding the charge assignments leaves, at each position, the last
assignment targeting it (the first of the reversed sequence). -/
theorem foldl_setCharge_get? (cs : List (Nat × JVal)) :
    ∀ (atoms : List Atom) (i : Nat),
      (cs.foldl (fun acc c => setCharge acc c.1 c.2) atoms).get? i =
        (atoms.get? i).map (overlayCharge cs.reverse i) := by
  induction cs with
  | nil =>
    intro atoms i
    rw [List.foldl_nil]
    cases h : atoms.get? i <;> rfl
  | cons c cs ih =>
    intro atoms i
    simp only [List.foldl_cons, List.reverse_cons]
    rw [ih, setCharge_get?]
    by_cases hci : c.1 = i
    · rw [if_pos hci]
      cases hga : atoms.get? i with
      | none => simp
      | some a =>
        simp only [Option.map_some']
        unfold overlayCharge
        rw [List.find?_append]
        cases hf : cs.reverse.find? (fun x => x.1 = i) with
        | some c2 =>
          obtain ⟨ax, ay, ae, az, ac⟩ := a
          rfl
        | none =>
          simp only [Option.none_or]
          rw [List.find?_cons_of_pos _ (by simpa using hci)]
    · rw [if_neg hci]
      cases hga : atoms.get? i with
      | none => simp
      | some a =>
        simp only [Option.map_some', Option.some.injEq]
        unfold overlayCharge
        rw [List.find?_append,
          List.find?_cons_of_neg _ (by simpa using hci)]
        cases hf : cs.reverse.find? (fun x => x.1 = i) <;> rfl

/-- Zipping equal-length arrays yields that length. -/
theorem zipXYE_length_eq : ∀ (xs ys es : List JVal),
    xs.length = es.length → ys.length = es.length →
    (zipXYE xs ys es).length = es.length := by
  intro xs
  induction xs with
  | nil =>
    intro ys es h1 h2
    cases es with
    | nil => cases ys <;> rfl
    | cons e es => simp at h1
  | cons x xs ih =>
    intro ys es h1 h2
    cases es with
    | nil => simp at h1
    | cons e es =>
      cases ys with
      | nil => simp at h2
      | cons y ys =>
        simp only [List.length_cons] at h1 h2
        simp only [zipXYE, List.length_cons]
        rw [ih ys es (by omega) (by omega)]

/-- Pointwise description of the zip. -/
theorem zipXYE_get? : ∀ (xs ys es : List JVal) (i : Nat),
    (zipXYE xs ys es).get? i =
      match xs.get? i, ys.get? i, es.get? i with
      | some x, some y, some e =>
        some ⟨x, y, e, none, none⟩
      | _, _, _ => none := by
  intro xs
  induction xs with
  | nil => intro ys es i; cases ys <;> cases es <;> cases i <;> simp [zipXYE]
  | cons x xs ih =>
    intro ys es i
    cases ys with
    | nil => cases es <;> cases i <;> simp [zipXYE]
    | cons y ys =>
      cases es with
      | nil => cases i <;> simp [zipXYE]
      | cons e es =>
        cases i with
        | zero => simp [zipXYE]
        | succ i' => simpa [zipXYE] using ih (y :: ys).tail es i'

/-- `Compound.atoms` on a canonical parallel-array record is the zip
followed by the charge overlay loop. -/
theorem atoms_mkAtomRecord (es xs ys : List JVal) :
    ∀ charges : List (Nat × JVal),
      Compound.atoms (mkAtomRecord es xs ys charges) =
        applyCharges (zipXYE xs ys es) (charges.map encCharge) := by
  intro charges
  cases charges with
  | nil => rfl
  | cons c cs => rfl

/-- Python list indexing of an in-range natural index. -/
theorem pyListIdx_nat (len i : Nat) (h : i < len) :
    pyListIdx len (i : Int) = some i := by
  unfold pyListIdx
  rw [if_pos (Int.natCast_nonneg i), if_pos (by exact_mod_cast h)]
  simp

/-- The charge loop on encoded in-range annotations is the pure fold
of charge assignments. -/
theorem applyCharges_enc : ∀ (cs : List (Nat × JVal)) (atoms : List Atom),
    (∀ c ∈ cs, c.1 < atoms.length) →
    applyCharges atoms (cs.map encCharge) =
      .ok (cs.foldl (fun acc c => setCharge acc c.1 c.2) atoms) := by
  intro cs
  induction cs with
  | nil => intro atoms h; rfl
  | cons c cs ih =>
    intro atoms h
    have step : applyCharges atoms (encCharge c :: cs.map encCharge) =
        match pyListIdx atoms.length (c.1 : Int) with
        | some idx => applyCharges (setCharge atoms idx c.2) (cs.map encCharge)
        | none => .error .indexError := rfl
    simp only [List.map_cons, step,
      pyListIdx_nat atoms.length c.1 (h c (by simp))]
    rw [ih (setCharge atoms c.1 c.2) ?later]
    · simp
    case later =>
      intro c2 hc2
      rw [setCharge_length]
      exact h c2 (by simp [hc2])

/-- C8: for every record carrying parallel atom arrays, the atoms
accessor zips the element/x/y arrays index-wise into one mapping per
atom and then overlays each charge annotation onto the atom at the
position given by its aid (the last annotation for a position wins,
matching the sequential overwrite); in particular, for elements
["C","O"], x=[0.0,1.0], y=[0.0,0.0] and the single annotation
(aid 1, value -1), the produced sequence is exactly the spec's
example. -/
theorem atoms_zip_overlay (es xs ys : List JVal)
    (charges : List (Nat × JVal))
    (hx : xs.length = es.length) (hy : ys.length = es.length)
    (hc : ∀ c ∈ charges, c.1 < es.length) :
    (∃ l, Compound.atoms (mkAtomRecord es xs ys charges) = .ok l ∧
      l.length = es.length ∧
      ∀ i x y e, xs.get? i = some x → ys.get? i = some y →
        es.get? i = some e →
        l.get? i = some (Atom.mk x y e none
          ((charges.reverse.find? (fun c => c.1 = i)).map Prod.snd))) ∧
    Compound.atoms exampleAtomRecord =
      .ok [⟨.float 0, .float 0, .str "C", none, none⟩,
           ⟨.float 1, .float 0, .str "O", none, some (.int (-1))⟩] := by
  refine ⟨?_, rfl⟩
  have hzl : (zipXYE xs ys es).length = es.length :=
    zipXYE_length_eq xs ys es hx hy
  have hc2 : ∀ c ∈ charges, c.1 < (zipXYE xs ys es).length := by
    intro c hcm
    rw [hzl]
    exact hc c hcm
  refine ⟨charges.foldl (fun acc c => setCharge acc c.1 c.2)
    (zipXYE xs ys es), ?_, ?_, ?_⟩
  · rw [atoms_mkAtomRecord, applyCharges_enc charges _ hc2]
  · rw [foldl_setCharge_length, hzl]
  · intro i x y e hxi hyi hei
    rw [foldl_setCharge_get?, zipXYE_get?, hxi, hyi, hei]
    simp only [Option.map_some', Option.some.injEq]
    unfold overlayCharge
    cases charges.reverse.find? (fun c => c.1 = i) <;> simp

/-- C8 witness: the general statement applied to the spec's example
arrays, with every hypothesis discharged concretely. -/
theorem atoms_zip_overlay_witness :
    (∀ c ∈ ([(1, JVal.int (-1))] : List (Nat × JVal)),
      c.1 < ([.str "C", .str "O"] : List JVal).length) ∧
    (∃ l, Compound.atoms exampleAtomRecord = .ok l ∧
      l.length = ([.str "C", .str "O"] : List JVal).length ∧
      ∀ i x y e,
        ([.float 0, .float 1] : List JVal).get? i = some x →
        ([.float 0, .float 0] : List JVal).get? i = some y →
        ([.str "C", .str "O"] : List JVal).get? i = some e →
        l.get? i = some (Atom.mk x y e none
          ((([(1, JVal.int (-1))] : List (Nat × JVal)).reverse.find?
            (fun c => c.1 = i)).map Prod.snd))) := by
  have hcp : ∀ c ∈ ([(1, JVal.int (-1))] : List (Nat × JVal)),
      c.1 < ([.str "C", .str "O"] : List JVal).length := by
    intro c hcm
    rw [List.mem_singleton] at hcm
    subst hcm
    norm_num
  exact ⟨hcp, (atoms_zip_overlay [.str "C", .str "O"] [.float 0, .float 1]
    [.float 0, .float 0] [(1, .int (-1))] rfl rfl hcp).1⟩

end PubChemPy
